import Mathlib

/-!
Verification of the worker-pool orchestration and shard-assignment logic of
onmt/bin/train.py (function train and its data-expansion preamble).

The embedding models:
* POSIX path strings and the subset of os.path used by the code
  (os.path.join for a root and a relative path, path-separator tests,
  Python string slicing and single-character replace);
* the file system as an oracle giving, for each path, whether it is a
  directory and the list of relative paths of the files found below it by
  os.walk (in an arbitrary, OS-dependent walk order);
* the corpus-dictionary expansion loop of train (lines 116-137), the
  seeded shuffle (lines 139-143), and the mode-selection / process-spawn
  logic (lines 145-197) as an event trace.

Python exceptions are modelled with Except String; a raise aborts the
function before any later effect, so a run that raises produces no event
trace at all.
-/

/-- Python string comparison (code-point lexicographic) on the underlying
character lists, as a boolean function that the kernel can evaluate. -/
def lexLe : List Char → List Char → Bool
  | [], _ => true
  | _ :: _, [] => false
  | a :: as, b :: bs => if a = b then lexLe as bs else decide (a < b)

/-- Python string less-or-equal, the order used by sorted() on str. -/
def pyStrLe (s t : String) : Prop := lexLe s.data t.data = true

instance : DecidableRel pyStrLe := fun s t =>
  inferInstanceAs (Decidable (lexLe s.data t.data = true))

/-- Python sorted() on a list of strings (a stable sort; on strings any
sort agrees with any other since equal keys are identical). -/
def pySorted (l : List String) : List String := List.insertionSort pyStrLe l

/-- Python s[n:] character slicing. -/
def pyDrop (s : String) (n : Nat) : String := ⟨s.data.drop n⟩

/-- Python len(s) for a str. -/
def pyLen (s : String) : Nat := s.data.length

/-- Python s.endswith(suffix). -/
def pyEndsWith (s suffix : String) : Bool := List.isSuffixOf suffix.data s.data

/-- POSIX path separator, the value of os.path.sep on the platform the
program targets. -/
def sepChar : Char := '/'

/-- Test used by os.path.join: b.startswith(sep). -/
def startsWithSep (s : String) : Bool := s.data.head? = some sepChar

/-- Test used by os.path.join: a.endswith(sep). -/
def endsWithSep (s : String) : Bool := s.data.getLast? = some sepChar

/-- POSIX os.path.join(a, b) for a single right operand: if b is absolute
it discards a; otherwise it inserts a separator unless a is empty or
already ends with one. -/
def osPathJoin (a b : String) : String :=
  if startsWithSep b then b
  else if a.data.isEmpty || endsWithSep a then a ++ b
  else a ++ "/" ++ b

/-- Python src_file.replace(os.path.sep, SOME_DASH): the pattern is the
single separator character, so the replacement is a character map. -/
def replaceSep (s : String) : String :=
  ⟨s.data.map (fun c => if c = sepChar then '-' else c)⟩

/-- One corpus descriptor from the opt.data mapping.  path_src and
path_tgt are the primary source paths; label_data models the optional
"label_data" key (none = the key is absent) holding the auxiliary
label-folder roots. -/
structure CorpusDict where
  path_src : String
  path_tgt : String
  label_data : Option (List String)
deriving DecidableEq, Repr

/-- File-system oracle: isDir mirrors os.path.isdir, and walkFiles gives
the relative paths (below the argument directory) of all files that
os.walk finds, in walk order, which the OS does not specify. -/
structure FileSystem where
  isDir : String → Bool
  walkFiles : String → List String

/-- Full path of a file discovered by the walk: the chain of
os.path.join calls from the walk root down to the file collapses to a
single join of the root with the relative path. -/
def fullPathOf (top rel : String) : String := osPathJoin top rel

/-- Expansion of one discovered file (train.py lines 126-135): copy the
descriptor, point path_src and path_tgt at the file, recompute label_data
by joining each label folder with the stripped suffix src_file (or set it
explicitly to none when the key is absent), and build the new identifier
corpus_id + sep-normalized src_file. -/
def expandEntry (corpus_id : String) (cd : CorpusDict) (src_file_path : String) :
    String × CorpusDict :=
  let src_file := pyDrop src_file_path (pyLen cd.path_src)
  let label : Option (List String) :=
    match cd.label_data with
    | some folders => some (folders.map (fun label_folder => osPathJoin label_folder src_file))
    | none => none
  (corpus_id ++ "-" ++ replaceSep src_file,
   { path_src := src_file_path, path_tgt := src_file_path, label_data := label })

/-- Sorted full paths of the .json files found under the directory
(train.py lines 118-123): walk, keep names ending in .json, join with the
root, sort lexicographically. -/
def jsonFilePaths (fs : FileSystem) (dir : String) : List String :=
  pySorted (((fs.walkFiles dir).filter (fun f => pyEndsWith f ".json")).map (fullPathOf dir))

/-- Expansion of one corpus descriptor (train.py lines 117-137): a
directory source expands to one entry per sorted .json file, raising when
none is found; a non-directory source passes through unchanged. -/
def expandCorpus (fs : FileSystem) (corpus_id : String) (cd : CorpusDict) :
    Except String (List (String × CorpusDict)) :=
  if fs.isDir cd.path_src then
    let src_file_paths := jsonFilePaths fs cd.path_src
    if src_file_paths.length = 0 then
      Except.error ("Error: no JSON files found in for " ++ corpus_id ++ " in: " ++ cd.path_src)
    else
      Except.ok (src_file_paths.map (expandEntry corpus_id cd))
  else
    Except.ok [(corpus_id, cd)]

/-- Python dict assignment d[k] = v: replace the value in place when the
key is present (keeping its original position), append otherwise. -/
def insertKV (m : List (String × CorpusDict)) (k : String) (v : CorpusDict) :
    List (String × CorpusDict) :=
  if m.any (fun p => p.1 = k) then m.map (fun p => if p.1 = k then (k, v) else p)
  else m ++ [(k, v)]

/-- Processing of one corpus of the loop body: expand it and assign every
resulting entry into the accumulating new_data_dict. -/
def corpusStep (fs : FileSystem) (acc : List (String × CorpusDict))
    (kv : String × CorpusDict) : Except String (List (String × CorpusDict)) :=
  (expandCorpus fs kv.1 kv.2).map (fun entries =>
    entries.foldl (fun m e => insertKV m e.1 e.2) acc)

/-- New_data_dict built by the whole loop over opt.data.items()
(train.py lines 108-137), modelled as an insertion-ordered association
list exactly like a Python dict. -/
def buildNewDataDict (fs : FileSystem) (data : List (String × CorpusDict)) :
    Except String (List (String × CorpusDict)) :=
  data.foldlM (corpusStep fs) []

/-- Linear-congruential step used by the shuffle model. -/
def lcgStep (s : Nat) : Nat := (6364136223846793005 * s + 1442695040888963407) % (2 ^ 64)

/-- Removal of the element at a given position, returning it and the rest. -/
def extractAt {α : Type} : Nat → List α → Option (α × List α)
  | _, [] => none
  | 0, x :: xs => some (x, xs)
  | n + 1, x :: xs => (extractAt n xs).map (fun p => (p.1, x :: p.2))

/-- Fisher-Yates style selection loop for the shuffle model. -/
def shuffleGo {α : Type} : Nat → Nat → List α → List α
  | _, 0, xs => xs
  | s, n + 1, xs =>
    match extractAt (s % (n + 1)) xs with
    | some (x, rest) => x :: shuffleGo (lcgStep s) n rest
    | none => xs

/-- Modelled from the spec: the seeded pseudo-random permutation applied
to the expanded entries (train.py lines 139-142 call numpy
np.random.shuffle under the utils.numpy_seed(opt.seed) context manager;
both live outside the given sources).  The spec requires only that the
result is a permutation of the input and a pure function of the seed and
the pre-shuffle ordering, so we model it as a deterministic Fisher-Yates
shuffle driven by a linear-congruential generator seeded with opt.seed. -/
def seededShuffle {α : Type} (seed : Nat) (xs : List α) : List α :=
  shuffleGo (lcgStep seed) xs.length xs

/-- Observable orchestration events of train (lines 145-197).
createSemaphore is mp.Semaphore(world_size * queue_size); createQueue is
mp.Queue(queue_size) for one device; startConsumer / registerConsumer are
the consumer process start and error_handler.add_child; startProducer
carries the device ordinal and the stride / offset passed to
_build_train_iter for the iterator handed to that producer;
registerProducer is its add_child; joinConsumer is p.join(); and
terminateProducer is p.terminate().  runInline is the synchronous call
train_process(opt, device_id). -/
inductive Event where
  | createSemaphore (capacity : Nat)
  | createQueue (deviceId : Nat) (capacity : Nat)
  | startConsumer (deviceId : Nat)
  | registerConsumer (deviceId : Nat)
  | startProducer (deviceId : Nat) (stride : Nat) (offset : Nat)
  | registerProducer (deviceId : Nat)
  | joinConsumer (deviceId : Nat)
  | terminateProducer (deviceId : Nat)
  | runInline (deviceId : Int)
deriving DecidableEq, Repr

/-- Options consumed by train: world_size, gpu_ranks (only its length,
nb_gpu, is read by this function), queue_size, seed and the corpus
mapping opt.data. -/
structure Opt where
  world_size : Nat
  gpu_ranks : List Nat
  queue_size : Nat
  seed : Nat
  data : List (String × CorpusDict)

/-- First spawn pass (train.py lines 163-171): per device, create its
queue, start its consumer process and register it with the error
handler. -/
def consumerPhase (nb qs : Nat) : List Event :=
  (List.range nb).flatMap (fun i =>
    [Event.createQueue i qs, Event.startConsumer i, Event.registerConsumer i])

/-- Second spawn pass (train.py lines 172-186): per device, build its
striding iterator (stride = nb_gpu, offset = device_id), start the
producer process and register it. -/
def producerPhase (nb : Nat) : List Event :=
  (List.range nb).flatMap (fun i =>
    [Event.startProducer i nb i, Event.registerProducer i])

/-- Event trace of the multiprocessing branch (train.py lines 153-192) on
the success path: semaphore creation, the two spawn passes, joining every
consumer, then terminating every producer. -/
def multiTrace (ws qs nb : Nat) : List Event :=
  Event.createSemaphore (ws * qs) ::
    (consumerPhase nb qs ++ producerPhase nb ++
      (List.range nb).map Event.joinConsumer ++
      (List.range nb).map Event.terminateProducer)

/-- The train operation (train.py lines 99-197) restricted to the
behavior the claims are about: expand opt.data, shuffle it with the seed,
then select the execution mode on world_size / nb_gpu and perform the
corresponding process lifecycle.  The result is the shuffled ShardSet
(the value train stores back into opt.data) together with the event
trace; a raised exception yields Except.error and no events. -/
def train (fs : FileSystem) (opt : Opt) :
    Except String (List (String × CorpusDict) × List Event) :=
  match buildNewDataDict fs opt.data with
  | Except.error msg => Except.error msg
  | Except.ok nd =>
    let shuffled := seededShuffle opt.seed nd
    let nb_gpu := opt.gpu_ranks.length
    if 1 < opt.world_size then
      Except.ok (shuffled, multiTrace opt.world_size opt.queue_size nb_gpu)
    else if nb_gpu = 1 then
      Except.ok (shuffled, [Event.runInline 0])
    else
      Except.ok (shuffled, [Event.runInline (-1)])

/-- Predicate for consumer process starts. -/
def isStartConsumer : Event → Bool
  | Event.startConsumer _ => true
  | _ => false

/-- Predicate for producer process starts. -/
def isStartProducer : Event → Bool
  | Event.startProducer _ _ _ => true
  | _ => false

/-- Predicate for any process spawn. -/
def isSpawn (e : Event) : Bool := isStartConsumer e || isStartProducer e

/-- Predicate for producer terminations. -/
def isTerminateProducer : Event → Bool
  | Event.terminateProducer _ => true
  | _ => false

/-- Predicate for consumer joins. -/
def isJoinConsumer : Event → Bool
  | Event.joinConsumer _ => true
  | _ => false

instance {ε α : Type} [DecidableEq ε] [DecidableEq α] : DecidableEq (Except ε α) := fun a b =>
  match a, b with
  | .ok x, .ok y =>
    if h : x = y then isTrue (by rw [h]) else isFalse (by intro hc; cases hc; exact h rfl)
  | .error x, .error y =>
    if h : x = y then isTrue (by rw [h]) else isFalse (by intro hc; cases hc; exact h rfl)
  | .ok _, .error _ => isFalse (by intro hc; cases hc)
  | .error _, .ok _ => isFalse (by intro hc; cases hc)

/-- Identifier list of an expansion result, for stating counterexamples. -/
def dictKeys (r : Except String (List (String × CorpusDict))) : Option (List String) :=
  r.toOption.map (List.map Prod.fst)

/-- Event trace of a train result, for stating counterexamples. -/
def traceOf (r : Except String (List (String × CorpusDict) × List Event)) :
    Option (List Event) :=
  r.toOption.map Prod.snd

/-- Numbers of consumer and producer process starts in a train result. -/
def spawnCounts (r : Except String (List (String × CorpusDict) × List Event)) :
    Option (Nat × Nat) :=
  r.toOption.map (fun p =>
    ((p.2.filter isStartConsumer).length, (p.2.filter isStartProducer).length))

/-- Label reference of the first entry of an expansion result. -/
def firstLabel (r : Except String (List (String × CorpusDict))) :
    Option (Option (List String)) :=
  r.toOption.bind (fun m => m.head?.map (fun e => e.2.label_data))

/-- Primary source path of the first entry of an expansion result. -/
def firstSrc (r : Except String (List (String × CorpusDict))) : Option String :=
  r.toOption.bind (fun m => m.head?.map (fun e => e.2.path_src))

/-- Producer-start events of a train result, for stating counterexamples. -/
def producerStarts (r : Except String (List (String × CorpusDict) × List Event)) :
    Option (List Event) :=
  r.toOption.map (fun p => p.2.filter isStartProducer)

/-! ### Concrete fixtures used by witnesses and counterexamples -/

/-- File system with no directories at all. -/
def fsNone : FileSystem := { isDir := fun _ => false, walkFiles := fun _ => [] }

/-- Plain single-file corpus descriptor. -/
def cdPlain : CorpusDict :=
  { path_src := "corpus.json", path_tgt := "corpus.json", label_data := none }

/-- Configuration with world_size 1 and no GPU ranks. -/
def optSingleNoGpu : Opt :=
  { world_size := 1, gpu_ranks := [], queue_size := 2, seed := 0, data := [("c", cdPlain)] }

/-- Configuration with world_size 0 and no GPU ranks. -/
def optZero : Opt :=
  { world_size := 0, gpu_ranks := [], queue_size := 2, seed := 0, data := [("c", cdPlain)] }

/-- Directory source configured without a trailing separator. -/
def cdDirNoSlash : CorpusDict :=
  { path_src := "data", path_tgt := "data", label_data := none }

/-- File system where the directory data holds a.json and b.json. -/
def fsDirNoSlash : FileSystem :=
  { isDir := fun p => p = "data",
    walkFiles := fun p => if p = "data" then ["a.json", "b.json"] else [] }

/-- Directory source without trailing separator but with a label root. -/
def cdLabelNoSlash : CorpusDict :=
  { path_src := "data", path_tgt := "data", label_data := some ["labels"] }

/-- File system where the directory data holds a single a.json. -/
def fsLabelNoSlash : FileSystem :=
  { isDir := fun p => p = "data",
    walkFiles := fun p => if p = "data" then ["a.json"] else [] }

/-- Directory source configured with a trailing separator. -/
def cdDirSlash : CorpusDict :=
  { path_src := "dir/", path_tgt := "dir/", label_data := none }

/-- File system where the directory dir/ holds a.json and b.json. -/
def fsDirSlash : FileSystem :=
  { isDir := fun p => p = "dir/",
    walkFiles := fun p => if p = "dir/" then ["a.json", "b.json"] else [] }

/-- Expansion entries of cdDirSlash over fsDirSlash. -/
def entriesDirSlash : List (String × CorpusDict) :=
  [("id-a.json", { path_src := "dir/a.json", path_tgt := "dir/a.json", label_data := none }),
   ("id-b.json", { path_src := "dir/b.json", path_tgt := "dir/b.json", label_data := none })]

/-- Directory source with trailing separator and two label roots. -/
def cdLabelSlash : CorpusDict :=
  { path_src := "dir/", path_tgt := "dir/", label_data := some ["labels", "more"] }

/-- Expansion entries of cdLabelSlash over fsDirSlash. -/
def entriesLabelSlash : List (String × CorpusDict) :=
  [("id-a.json",
    { path_src := "dir/a.json", path_tgt := "dir/a.json",
      label_data := some ["labels/a.json", "more/a.json"] }),
   ("id-b.json",
    { path_src := "dir/b.json", path_tgt := "dir/b.json",
      label_data := some ["labels/b.json", "more/b.json"] })]

/-- Directory source whose directory holds no .json file. -/
def cdEmptyDir : CorpusDict := { path_src := "ed", path_tgt := "ed", label_data := none }

/-- File system where the directory ed holds only readme.txt. -/
def fsEmptyDir : FileSystem :=
  { isDir := fun p => p = "ed",
    walkFiles := fun p => if p = "ed" then ["readme.txt"] else [] }

/-- Configuration whose only corpus is the empty directory. -/
def optEmptyDir : Opt :=
  { world_size := 3, gpu_ranks := [0, 1, 2], queue_size := 4, seed := 7,
    data := [("e", cdEmptyDir)] }

/-- Multi-device configuration with two GPU ranks. -/
def optMulti : Opt :=
  { world_size := 2, gpu_ranks := [0, 1], queue_size := 3, seed := 0, data := [("c", cdPlain)] }

/-- Multi-device configuration whose GPU-rank count differs from world_size. -/
def optOneGpu : Opt :=
  { world_size := 2, gpu_ranks := [0], queue_size := 1, seed := 0, data := [("c", cdPlain)] }

/-- File system walking dir/ in one order. -/
def fsWalkA : FileSystem :=
  { isDir := fun p => p = "dir/",
    walkFiles := fun p => if p = "dir/" then ["b.json", "a.json"] else [] }

/-- File system with the same contents walking dir/ in the other order. -/
def fsWalkB : FileSystem :=
  { isDir := fun p => p = "dir/",
    walkFiles := fun p => if p = "dir/" then ["a.json", "b.json"] else [] }

/-- Configuration whose only corpus is the dir/ directory. -/
def optDir : Opt :=
  { world_size := 1, gpu_ranks := [0], queue_size := 2, seed := 3, data := [("id", cdDirSlash)] }

/-- Directory whose files a-b.json and a/b.json normalize to the same key. -/
def fsCollide : FileSystem :=
  { isDir := fun p => p = "dir/",
    walkFiles := fun p => if p = "dir/" then ["a-b.json", "a/b.json"] else [] }

/-- Descriptor for the colliding directory. -/
def cdCollide : CorpusDict := { path_src := "dir/", path_tgt := "dir/", label_data := none }

/-! ### Order properties of the Python string comparison -/

lemma lexLe_total : ∀ as bs : List Char, lexLe as bs = true ∨ lexLe bs as = true := by
  intro as
  induction as with
  | nil => intro bs; left; rfl
  | cons a as ih =>
    intro bs
    cases bs with
    | nil => right; rfl
    | cons b bs =>
      by_cases hab : a = b
      · subst hab
        rcases ih bs with h | h
        · left; simpa [lexLe] using h
        · right; simpa [lexLe] using h
      · rcases lt_trichotomy a b with h | h | h
        · left; simp [lexLe, hab, h]
        · exact absurd h hab
        · right; simp [lexLe, Ne.symm hab, h]

lemma lexLe_trans : ∀ as bs cs : List Char,
    lexLe as bs = true → lexLe bs cs = true → lexLe as cs = true := by
  intro as
  induction as with
  | nil => intro bs cs _ _; rfl
  | cons a as ih =>
    intro bs cs h1 h2
    cases bs with
    | nil => simp [lexLe] at h1
    | cons b bs =>
      cases cs with
      | nil => simp [lexLe] at h2
      | cons c cs =>
        by_cases hab : a = b <;> by_cases hbc : b = c
        · subst hab; subst hbc
          simp only [lexLe, if_pos rfl] at h1 h2 ⊢
          exact ih bs cs h1 h2
        · subst hab
          simp only [lexLe, if_pos rfl] at h1
          simp only [lexLe, if_neg hbc, decide_eq_true_eq] at h2
          simp [lexLe, hbc, h2]
        · subst hbc
          simp only [lexLe, if_neg hab, decide_eq_true_eq] at h1
          simp [lexLe, hab, h1]
        · simp only [lexLe, if_neg hab, decide_eq_true_eq] at h1
          simp only [lexLe, if_neg hbc, decide_eq_true_eq] at h2
          have hac : a < c := lt_trans h1 h2
          have : a ≠ c := ne_of_lt hac
          simp [lexLe, this, hac]

lemma lexLe_antisymm : ∀ as bs : List Char,
    lexLe as bs = true → lexLe bs as = true → as = bs := by
  intro as
  induction as with
  | nil =>
    intro bs _ h2
    cases bs with
    | nil => rfl
    | cons b bs => simp [lexLe] at h2
  | cons a as ih =>
    intro bs h1 h2
    cases bs with
    | nil => simp [lexLe] at h1
    | cons b bs =>
      by_cases hab : a = b
      · subst hab
        simp only [lexLe, if_pos rfl] at h1 h2
        rw [ih bs h1 h2]
      · simp only [lexLe, if_neg hab, decide_eq_true_eq] at h1
        simp only [lexLe, if_neg (Ne.symm hab), decide_eq_true_eq] at h2
        exact absurd h2 (lt_asymm h1)

instance : IsTotal String pyStrLe := ⟨fun s t => lexLe_total s.data t.data⟩

instance : IsTrans String pyStrLe := ⟨fun a b c h1 h2 => lexLe_trans a.data b.data c.data h1 h2⟩

instance : IsAntisymm String pyStrLe :=
  ⟨fun a b h1 h2 => by
    cases a with
    | mk l =>
      cases b with
      | mk m => exact congrArg String.mk (lexLe_antisymm l m h1 h2)⟩

lemma pySorted_perm (l : List String) : (pySorted l).Perm l :=
  List.perm_insertionSort pyStrLe l

lemma pySorted_sorted (l : List String) : List.Sorted pyStrLe (pySorted l) :=
  List.sorted_insertionSort pyStrLe l

lemma pySorted_congr_perm {l₁ l₂ : List String} (h : l₁.Perm l₂) :
    pySorted l₁ = pySorted l₂ :=
  List.eq_of_perm_of_sorted
    ((pySorted_perm l₁).trans (h.trans (pySorted_perm l₂).symm))
    (pySorted_sorted l₁) (pySorted_sorted l₂)

lemma mem_pySorted {a : String} {l : List String} : a ∈ pySorted l ↔ a ∈ l :=
  (pySorted_perm l).mem_iff

/-! ### String and path lemmas -/

lemma string_mk_append (l m : List Char) : String.mk l ++ String.mk m = String.mk (l ++ m) := rfl

lemma pyDrop_append (a b : String) : pyDrop (a ++ b) (pyLen a) = b := by
  cases a with
  | mk l =>
    cases b with
    | mk m =>
      show (⟨((String.mk l ++ String.mk m).data).drop (String.mk l).data.length⟩ : String) = ⟨m⟩
      rw [string_mk_append]
      show (⟨(l ++ m).drop l.length⟩ : String) = ⟨m⟩
      rw [List.drop_left]

lemma osPathJoin_sep {a b : String} (ha : endsWithSep a = true) (hb : startsWithSep b = false) :
    osPathJoin a b = a ++ b := by
  unfold osPathJoin
  rw [hb, ha]
  simp

lemma expandEntry_key {corpus_id : String} {cd : CorpusDict} {rel : String}
    (hsep : endsWithSep cd.path_src = true) (hrel : startsWithSep rel = false) :
    (expandEntry corpus_id cd (fullPathOf cd.path_src rel)).1 =
      corpus_id ++ "-" ++ replaceSep rel := by
  unfold expandEntry fullPathOf
  rw [osPathJoin_sep hsep hrel, pyDrop_append]

lemma expandEntry_label {corpus_id : String} {cd : CorpusDict} {rel : String}
    (hsep : endsWithSep cd.path_src = true) (hrel : startsWithSep rel = false) :
    (expandEntry corpus_id cd (fullPathOf cd.path_src rel)).2.label_data =
      cd.label_data.map (fun folders => folders.map (fun lf => osPathJoin lf rel)) := by
  unfold expandEntry fullPathOf
  rw [osPathJoin_sep hsep hrel, pyDrop_append]
  cases cd.label_data <;> rfl

/-! ### Expansion lemmas -/

lemma mem_jsonFilePaths {fs : FileSystem} {dir p : String} :
    p ∈ jsonFilePaths fs dir ↔
      ∃ rel ∈ fs.walkFiles dir, pyEndsWith rel ".json" = true ∧ p = fullPathOf dir rel := by
  unfold jsonFilePaths
  rw [mem_pySorted, List.mem_map]
  constructor
  · rintro ⟨rel, hrel, rfl⟩
    rw [List.mem_filter] at hrel
    exact ⟨rel, hrel.1, hrel.2, rfl⟩
  · rintro ⟨rel, hmem, hjson, rfl⟩
    exact ⟨rel, List.mem_filter.mpr ⟨hmem, hjson⟩, rfl⟩

lemma mem_jsonFilePaths_of_walk {fs : FileSystem} {dir rel : String}
    (hmem : rel ∈ fs.walkFiles dir) (hjson : pyEndsWith rel ".json" = true) :
    fullPathOf dir rel ∈ jsonFilePaths fs dir :=
  mem_jsonFilePaths.mpr ⟨rel, hmem, hjson, rfl⟩

lemma expandCorpus_ok_dir {fs : FileSystem} {corpus_id : String} {cd : CorpusDict}
    {entries : List (String × CorpusDict)}
    (hdir : fs.isDir cd.path_src = true)
    (hok : expandCorpus fs corpus_id cd = Except.ok entries) :
    entries = (jsonFilePaths fs cd.path_src).map (expandEntry corpus_id cd) := by
  unfold expandCorpus at hok
  rw [hdir] at hok
  simp only [if_true] at hok
  split at hok
  · cases hok
  · cases hok
    rfl

lemma expandCorpus_error_of_empty {fs : FileSystem} {corpus_id : String} {cd : CorpusDict}
    (hdir : fs.isDir cd.path_src = true)
    (hempty : (fs.walkFiles cd.path_src).filter (fun f => pyEndsWith f ".json") = []) :
    ∃ msg, expandCorpus fs corpus_id cd = Except.error msg := by
  refine ⟨"Error: no JSON files found in for " ++ corpus_id ++ " in: " ++ cd.path_src, ?_⟩
  unfold expandCorpus
  rw [hdir]
  have hnil : jsonFilePaths fs cd.path_src = [] := by
    unfold jsonFilePaths
    rw [hempty]
    rfl
  rw [hnil]
  rfl

lemma foldlM_error_of_mem {fs : FileSystem} :
    ∀ (l : List (String × CorpusDict)) (acc : List (String × CorpusDict))
      (k : String) (cd : CorpusDict),
      (k, cd) ∈ l → fs.isDir cd.path_src = true →
      (fs.walkFiles cd.path_src).filter (fun f => pyEndsWith f ".json") = [] →
      ∃ msg, l.foldlM (corpusStep fs) acc = Except.error msg := by
  intro l
  induction l with
  | nil => intro acc k cd hmem; cases hmem
  | cons kv t ih =>
    intro acc k cd hmem hdir hempty
    rw [List.foldlM_cons]
    cases h0 : corpusStep fs acc kv with
    | error m =>
      exact ⟨m, rfl⟩
    | ok acc2 =>
      rcases List.mem_cons.mp hmem with heq | htail
      · exfalso
        subst heq
        obtain ⟨msg, hmsg⟩ := @expandCorpus_error_of_empty fs k cd hdir hempty
        simp only [corpusStep] at h0
        rw [hmsg] at h0
        cases h0
      · obtain ⟨msg, hmsg⟩ := ih acc2 k cd htail hdir hempty
        refine ⟨msg, ?_⟩
        show t.foldlM (corpusStep fs) acc2 = Except.error msg
        exact hmsg

lemma buildNewDataDict_error_of_mem {fs : FileSystem} {data : List (String × CorpusDict)}
    {k : String} {cd : CorpusDict}
    (hmem : (k, cd) ∈ data) (hdir : fs.isDir cd.path_src = true)
    (hempty : (fs.walkFiles cd.path_src).filter (fun f => pyEndsWith f ".json") = []) :
    ∃ msg, buildNewDataDict fs data = Except.error msg :=
  foldlM_error_of_mem data [] k cd hmem hdir hempty

/-! ### Congruence of the expansion in the walk order -/

lemma expandCorpus_congr {fs1 fs2 : FileSystem} {corpus_id : String} {cd : CorpusDict}
    (hdir : fs1.isDir cd.path_src = fs2.isDir cd.path_src)
    (hwalk : (fs1.walkFiles cd.path_src).Perm (fs2.walkFiles cd.path_src)) :
    expandCorpus fs1 corpus_id cd = expandCorpus fs2 corpus_id cd := by
  have hjson : jsonFilePaths fs1 cd.path_src = jsonFilePaths fs2 cd.path_src := by
    unfold jsonFilePaths
    exact pySorted_congr_perm ((hwalk.filter _).map _)
  unfold expandCorpus
  rw [hdir, hjson]

lemma foldlM_congr {fs1 fs2 : FileSystem} :
    ∀ (l : List (String × CorpusDict)),
      (∀ kv ∈ l, fs1.isDir kv.2.path_src = fs2.isDir kv.2.path_src ∧
        (fs1.walkFiles kv.2.path_src).Perm (fs2.walkFiles kv.2.path_src)) →
      ∀ acc, l.foldlM (corpusStep fs1) acc = l.foldlM (corpusStep fs2) acc := by
  intro l
  induction l with
  | nil => intro _ acc; rfl
  | cons kv t ih =>
    intro h acc
    have hstep : corpusStep fs1 acc kv = corpusStep fs2 acc kv := by
      unfold corpusStep
      rw [expandCorpus_congr (h kv (List.mem_cons_self kv t)).1 (h kv (List.mem_cons_self kv t)).2]
    rw [List.foldlM_cons, List.foldlM_cons, hstep]
    cases h2 : corpusStep fs2 acc kv with
    | error m => rfl
    | ok acc2 =>
      show t.foldlM (corpusStep fs1) acc2 = t.foldlM (corpusStep fs2) acc2
      exact ih (fun kv2 hkv2 => h kv2 (List.mem_cons_of_mem kv hkv2)) acc2

lemma buildNewDataDict_congr {fs1 fs2 : FileSystem} {data : List (String × CorpusDict)}
    (h : ∀ kv ∈ data, fs1.isDir kv.2.path_src = fs2.isDir kv.2.path_src ∧
      (fs1.walkFiles kv.2.path_src).Perm (fs2.walkFiles kv.2.path_src)) :
    buildNewDataDict fs1 data = buildNewDataDict fs2 data :=
  foldlM_congr data h []

/-! ### Trace lemmas for the orchestrator -/

lemma train_ok_multi {fs : FileSystem} {opt : Opt}
    {d : List (String × CorpusDict)} {tr : List Event}
    (hws : 1 < opt.world_size) (hok : train fs opt = Except.ok (d, tr)) :
    tr = multiTrace opt.world_size opt.queue_size opt.gpu_ranks.length := by
  unfold train at hok
  split at hok
  · cases hok
  · rw [if_pos hws] at hok
    injection hok with h
    exact (congrArg Prod.snd h).symm

lemma train_ok_small {fs : FileSystem} {opt : Opt}
    {d : List (String × CorpusDict)} {tr : List Event}
    (hws : opt.world_size ≤ 1) (hok : train fs opt = Except.ok (d, tr)) :
    tr = [Event.runInline (if opt.gpu_ranks.length = 1 then 0 else -1)] := by
  unfold train at hok
  split at hok
  · cases hok
  · rw [if_neg (by omega)] at hok
    by_cases hnb : opt.gpu_ranks.length = 1
    · rw [if_pos hnb] at hok
      injection hok with h
      rw [if_pos hnb]
      exact (congrArg Prod.snd h).symm
    · rw [if_neg hnb] at hok
      injection hok with h
      rw [if_neg hnb]
      exact (congrArg Prod.snd h).symm

lemma mem_consumerPhase_cases {nb qs : Nat} {e : Event} (he : e ∈ consumerPhase nb qs) :
    ∃ i, i < nb ∧ (e = Event.createQueue i qs ∨ e = Event.startConsumer i ∨
      e = Event.registerConsumer i) := by
  unfold consumerPhase at he
  rw [List.mem_flatMap] at he
  obtain ⟨i, hi, hmem⟩ := he
  rw [List.mem_range] at hi
  refine ⟨i, hi, ?_⟩
  simpa using hmem

lemma mem_producerPhase_cases {nb : Nat} {e : Event} (he : e ∈ producerPhase nb) :
    ∃ i, i < nb ∧ (e = Event.startProducer i nb i ∨ e = Event.registerProducer i) := by
  unfold producerPhase at he
  rw [List.mem_flatMap] at he
  obtain ⟨i, hi, hmem⟩ := he
  rw [List.mem_range] at hi
  refine ⟨i, hi, ?_⟩
  simpa using hmem

lemma startConsumer_mem_consumerPhase {nb qs i : Nat} (hi : i < nb) :
    Event.startConsumer i ∈ consumerPhase nb qs := by
  unfold consumerPhase
  rw [List.mem_flatMap]
  exact ⟨i, List.mem_range.mpr hi, by simp⟩

lemma registerConsumer_mem_consumerPhase {nb qs i : Nat} (hi : i < nb) :
    Event.registerConsumer i ∈ consumerPhase nb qs := by
  unfold consumerPhase
  rw [List.mem_flatMap]
  exact ⟨i, List.mem_range.mpr hi, by simp⟩

lemma createQueue_mem_consumerPhase {nb qs i : Nat} (hi : i < nb) :
    Event.createQueue i qs ∈ consumerPhase nb qs := by
  unfold consumerPhase
  rw [List.mem_flatMap]
  exact ⟨i, List.mem_range.mpr hi, by simp⟩

lemma startProducer_mem_producerPhase {nb i : Nat} (hi : i < nb) :
    Event.startProducer i nb i ∈ producerPhase nb := by
  unfold producerPhase
  rw [List.mem_flatMap]
  exact ⟨i, List.mem_range.mpr hi, by simp⟩

lemma mem_multiTrace_cases {ws qs nb : Nat} {e : Event} (he : e ∈ multiTrace ws qs nb) :
    e = Event.createSemaphore (ws * qs) ∨
    (∃ i, i < nb ∧ (e = Event.createQueue i qs ∨ e = Event.startConsumer i ∨
      e = Event.registerConsumer i)) ∨
    (∃ i, i < nb ∧ (e = Event.startProducer i nb i ∨ e = Event.registerProducer i)) ∨
    (∃ i, i < nb ∧ e = Event.joinConsumer i) ∨
    (∃ i, i < nb ∧ e = Event.terminateProducer i) := by
  unfold multiTrace at he
  rcases List.mem_cons.mp he with h | h
  · exact Or.inl h
  · rw [List.append_assoc, List.append_assoc] at h
    rcases List.mem_append.mp h with h | h
    · exact Or.inr (Or.inl (mem_consumerPhase_cases h))
    · rcases List.mem_append.mp h with h | h
      · exact Or.inr (Or.inr (Or.inl (mem_producerPhase_cases h)))
      · rcases List.mem_append.mp h with h | h
        · refine Or.inr (Or.inr (Or.inr (Or.inl ?_)))
          rw [List.mem_map] at h
          obtain ⟨i, hi, rfl⟩ := h
          exact ⟨i, List.mem_range.mp hi, rfl⟩
        · refine Or.inr (Or.inr (Or.inr (Or.inr ?_)))
          rw [List.mem_map] at h
          obtain ⟨i, hi, rfl⟩ := h
          exact ⟨i, List.mem_range.mp hi, rfl⟩

lemma filter_flatMap_singleton {α β : Type} (l : List α) (f : α → List β) (p : β → Bool)
    (g : α → β) (h : ∀ a, (f a).filter p = [g a]) :
    (l.flatMap f).filter p = l.map g := by
  induction l with
  | nil => rfl
  | cons x xs ih => rw [List.flatMap_cons, List.filter_append, h, List.map_cons, ih]; rfl

lemma filter_flatMap_nil {α β : Type} (l : List α) (f : α → List β) (p : β → Bool)
    (h : ∀ a, (f a).filter p = []) :
    (l.flatMap f).filter p = [] := by
  induction l with
  | nil => rfl
  | cons x xs ih => rw [List.flatMap_cons, List.filter_append, h, ih]; rfl

lemma filter_map_nil {α β : Type} (l : List α) (g : α → β) (p : β → Bool)
    (h : ∀ a, p (g a) = false) :
    (l.map g).filter p = [] := by
  rw [List.filter_eq_nil_iff]
  intro a ha
  rw [List.mem_map] at ha
  obtain ⟨b, _, rfl⟩ := ha
  simp [h]

lemma multiTrace_filter_startConsumer (ws qs nb : Nat) :
    (multiTrace ws qs nb).filter isStartConsumer = (List.range nb).map Event.startConsumer := by
  have hA : (consumerPhase nb qs).filter isStartConsumer =
      (List.range nb).map Event.startConsumer :=
    filter_flatMap_singleton (List.range nb)
      (fun i => [Event.createQueue i qs, Event.startConsumer i, Event.registerConsumer i])
      isStartConsumer Event.startConsumer (fun i => rfl)
  have hB : (producerPhase nb).filter isStartConsumer = [] :=
    filter_flatMap_nil (List.range nb)
      (fun i => [Event.startProducer i nb i, Event.registerProducer i])
      isStartConsumer (fun i => rfl)
  have hC : (((List.range nb).map Event.joinConsumer).filter isStartConsumer) = [] :=
    filter_map_nil (List.range nb) Event.joinConsumer isStartConsumer (fun i => rfl)
  have hD : (((List.range nb).map Event.terminateProducer).filter isStartConsumer) = [] :=
    filter_map_nil (List.range nb) Event.terminateProducer isStartConsumer (fun i => rfl)
  unfold multiTrace
  rw [List.filter_cons_of_neg (by simp [isStartConsumer]), List.filter_append,
    List.filter_append, List.filter_append, hA, hB, hC, hD]
  simp

lemma multiTrace_filter_startProducer (ws qs nb : Nat) :
    (multiTrace ws qs nb).filter isStartProducer =
      (List.range nb).map (fun i => Event.startProducer i nb i) := by
  have hA : (consumerPhase nb qs).filter isStartProducer = [] :=
    filter_flatMap_nil (List.range nb)
      (fun i => [Event.createQueue i qs, Event.startConsumer i, Event.registerConsumer i])
      isStartProducer (fun i => rfl)
  have hB : (producerPhase nb).filter isStartProducer =
      (List.range nb).map (fun i => Event.startProducer i nb i) :=
    filter_flatMap_singleton (List.range nb)
      (fun i => [Event.startProducer i nb i, Event.registerProducer i])
      isStartProducer (fun i => Event.startProducer i nb i) (fun i => rfl)
  have hC : (((List.range nb).map Event.joinConsumer).filter isStartProducer) = [] :=
    filter_map_nil (List.range nb) Event.joinConsumer isStartProducer (fun i => rfl)
  have hD : (((List.range nb).map Event.terminateProducer).filter isStartProducer) = [] :=
    filter_map_nil (List.range nb) Event.terminateProducer isStartProducer (fun i => rfl)
  unfold multiTrace
  rw [List.filter_cons_of_neg (by simp [isStartProducer]), List.filter_append,
    List.filter_append, List.filter_append, hA, hB, hC, hD]
  simp

lemma multiTrace_filter_terminateProducer (ws qs nb : Nat) :
    (multiTrace ws qs nb).filter isTerminateProducer =
      (List.range nb).map Event.terminateProducer := by
  have hA : (consumerPhase nb qs).filter isTerminateProducer = [] :=
    filter_flatMap_nil (List.range nb)
      (fun i => [Event.createQueue i qs, Event.startConsumer i, Event.registerConsumer i])
      isTerminateProducer (fun i => rfl)
  have hB : (producerPhase nb).filter isTerminateProducer = [] :=
    filter_flatMap_nil (List.range nb)
      (fun i => [Event.startProducer i nb i, Event.registerProducer i])
      isTerminateProducer (fun i => rfl)
  have hC : (((List.range nb).map Event.joinConsumer).filter isTerminateProducer) = [] :=
    filter_map_nil (List.range nb) Event.joinConsumer isTerminateProducer (fun i => rfl)
  have hD : (((List.range nb).map Event.terminateProducer).filter isTerminateProducer) =
      (List.range nb).map Event.terminateProducer :=
    List.filter_eq_self.mpr (by
      intro a ha
      rw [List.mem_map] at ha
      obtain ⟨b, _, rfl⟩ := ha
      rfl)
  unfold multiTrace
  rw [List.filter_cons_of_neg (by simp [isTerminateProducer]), List.filter_append,
    List.filter_append, List.filter_append, hA, hB, hC, hD]
  simp

/-! ### Claim theorems -/

/-- Claim C1 (amended): when world_size is at most 1 the train operation spawns no
process and runs the compute step inline as its only event; the inline device is 0
when exactly one GPU rank is configured and the no-accelerator sentinel -1
otherwise.  The device is thus selected by the number of configured GPU ranks, not
by world_size: with world_size = 1 and an empty gpu_ranks the device is -1. -/
theorem C1_mode_selection (fs : FileSystem) (opt : Opt) (d : List (String × CorpusDict))
    (tr : List Event) (hws : opt.world_size ≤ 1)
    (hok : train fs opt = Except.ok (d, tr)) :
    tr = [Event.runInline (if opt.gpu_ranks.length = 1 then 0 else -1)] ∧
    ∀ e ∈ tr, isSpawn e = false := by
  have htr := train_ok_small hws hok
  subst htr
  refine ⟨rfl, ?_⟩
  intro e he
  rw [List.mem_singleton] at he
  subst he
  rfl

/-- Claim C1 as stated is false on the code: with world_size = 1 and no configured
GPU ranks the compute step runs inline with device -1, not bound to device 0. -/
theorem C1_counterexample :
    optSingleNoGpu.world_size = 1 ∧
    traceOf (train fsNone optSingleNoGpu) = some [Event.runInline (-1)] ∧
    some [Event.runInline (-1)] ≠ some [Event.runInline 0] :=
  ⟨rfl, by decide, by decide⟩

/-- Witness for C1_mode_selection at the concrete configuration optZero. -/
theorem C1_mode_selection_witness :
    optZero.world_size ≤ 1 ∧
    train fsNone optZero = Except.ok ([("c", cdPlain)], [Event.runInline (-1)]) ∧
    ([Event.runInline (-1)] =
        [Event.runInline (if optZero.gpu_ranks.length = 1 then 0 else -1)] ∧
      ∀ e ∈ [Event.runInline (-1)], isSpawn e = false) :=
  ⟨by decide, by decide,
   C1_mode_selection fsNone optZero [("c", cdPlain)] [Event.runInline (-1)]
     (by decide) (by decide)⟩

/-- Claim C2: a configured corpus whose primary source path is a directory holding
zero files that match the fixed .json filter makes train fail with the
configuration error, and the failed run produces no event trace at all, so the
failure happens before any worker or producer process is spawned. -/
theorem C2_empty_dir_error (fs : FileSystem) (opt : Opt) (k : String) (cd : CorpusDict)
    (hmem : (k, cd) ∈ opt.data) (hdir : fs.isDir cd.path_src = true)
    (hempty : (fs.walkFiles cd.path_src).filter (fun f => pyEndsWith f ".json") = []) :
    (∃ msg, train fs opt = Except.error msg) ∧
    ∀ d tr, train fs opt ≠ Except.ok (d, tr) := by
  obtain ⟨msg, hmsg⟩ := buildNewDataDict_error_of_mem hmem hdir hempty
  have herr : train fs opt = Except.error msg := by
    unfold train
    rw [hmsg]
  refine ⟨⟨msg, herr⟩, ?_⟩
  intro d tr hok
  rw [herr] at hok
  cases hok

/-- Witness for C2_empty_dir_error at the concrete configuration optEmptyDir. -/
theorem C2_empty_dir_error_witness :
    ("e", cdEmptyDir) ∈ optEmptyDir.data ∧
    fsEmptyDir.isDir cdEmptyDir.path_src = true ∧
    (fsEmptyDir.walkFiles cdEmptyDir.path_src).filter (fun f => pyEndsWith f ".json") = [] ∧
    ((∃ msg, train fsEmptyDir optEmptyDir = Except.error msg) ∧
      ∀ d tr, train fsEmptyDir optEmptyDir ≠ Except.ok (d, tr)) :=
  ⟨by decide, by decide, by decide,
   C2_empty_dir_error fsEmptyDir optEmptyDir "e" cdEmptyDir (by decide) (by decide) (by decide)⟩

/-- Claim C3 (amended): each file under a directory-backed descriptor yields an
entry whose identifier is the corpus id, a dash, and the separator-normalized
suffix of the full path after its first len(path_src) characters.  When the
configured directory path ends with the separator (the walked relative paths being
relative, as os.walk produces them), that suffix is exactly the relative path, so
the identifiers are id-a.json and id-b.json for files a.json and b.json; without a
trailing separator the suffix keeps a leading separator and every identifier gains
an extra dash, e.g. id--a.json. -/
theorem C3_identifiers (fs : FileSystem) (corpus_id : String) (cd : CorpusDict)
    (entries : List (String × CorpusDict))
    (hdir : fs.isDir cd.path_src = true)
    (hsep : endsWithSep cd.path_src = true)
    (hrel : ∀ rel ∈ fs.walkFiles cd.path_src, startsWithSep rel = false)
    (hok : expandCorpus fs corpus_id cd = Except.ok entries) :
    (∀ rel ∈ fs.walkFiles cd.path_src, pyEndsWith rel ".json" = true →
      (corpus_id ++ "-" ++ replaceSep rel) ∈ entries.map Prod.fst) ∧
    (∀ key ∈ entries.map Prod.fst, ∃ rel ∈ fs.walkFiles cd.path_src,
      pyEndsWith rel ".json" = true ∧ key = corpus_id ++ "-" ++ replaceSep rel) := by
  have hent := expandCorpus_ok_dir hdir hok
  subst hent
  constructor
  · intro rel hmem hjson
    rw [List.mem_map]
    refine ⟨expandEntry corpus_id cd (fullPathOf cd.path_src rel), ?_, ?_⟩
    · exact List.mem_map_of_mem _ (mem_jsonFilePaths_of_walk hmem hjson)
    · exact expandEntry_key hsep (hrel rel hmem)
  · intro key hkey
    rw [List.mem_map] at hkey
    obtain ⟨e, he, rfl⟩ := hkey
    rw [List.mem_map] at he
    obtain ⟨p, hp, rfl⟩ := he
    obtain ⟨rel, hmem, hjson, rfl⟩ := mem_jsonFilePaths.mp hp
    exact ⟨rel, hmem, hjson, expandEntry_key hsep (hrel rel hmem)⟩

/-- Claim C3 as stated is false on the code: a directory path configured without a
trailing separator containing exactly a.json and b.json yields the identifiers
id--a.json and id--b.json (the stripped suffix keeps its leading separator, which
normalizes to a dash), not id-a.json and id-b.json. -/
theorem C3_counterexample :
    dictKeys (buildNewDataDict fsDirNoSlash [("id", cdDirNoSlash)]) =
      some ["id--a.json", "id--b.json"] ∧
    some ["id--a.json", "id--b.json"] ≠ some ["id-a.json", "id-b.json"] :=
  ⟨by decide, by decide⟩

/-- Witness for C3_identifiers on the directory dir/ holding a.json and b.json. -/
theorem C3_identifiers_witness :
    (fsDirSlash.isDir cdDirSlash.path_src = true ∧
      endsWithSep cdDirSlash.path_src = true ∧
      (∀ rel ∈ fsDirSlash.walkFiles cdDirSlash.path_src, startsWithSep rel = false) ∧
      expandCorpus fsDirSlash "id" cdDirSlash = Except.ok entriesDirSlash) ∧
    ((∀ rel ∈ fsDirSlash.walkFiles cdDirSlash.path_src, pyEndsWith rel ".json" = true →
        ("id" ++ "-" ++ replaceSep rel) ∈ entriesDirSlash.map Prod.fst) ∧
      (∀ key ∈ entriesDirSlash.map Prod.fst, ∃ rel ∈ fsDirSlash.walkFiles cdDirSlash.path_src,
        pyEndsWith rel ".json" = true ∧ key = "id" ++ "-" ++ replaceSep rel)) :=
  ⟨⟨by decide, by decide, by decide, by decide⟩,
   C3_identifiers fsDirSlash "id" cdDirSlash entriesDirSlash
     (by decide) (by decide) (by decide) (by decide)⟩

/-- Claim C4 (amended): each expanded entry of a directory-backed descriptor
comes from exactly one walked file — the entry's primary source path is the full
path of that file and its identifier is built from that file's suffix — and the
entry's label reference equals the descriptor label roots mapped through
os.path.join with that same file's stripped suffix src_file; in particular with no
label roots it is explicitly absent (none), not inherited.  When the configured
directory path ends with the separator the suffix is the relative path and the
join really combines each root with it; without a trailing separator the suffix is
absolute and os.path.join discards the root (see the counterexample). -/
theorem C4_labels (fs : FileSystem) (corpus_id : String) (cd : CorpusDict)
    (entries : List (String × CorpusDict))
    (hdir : fs.isDir cd.path_src = true)
    (hsep : endsWithSep cd.path_src = true)
    (hrel : ∀ rel ∈ fs.walkFiles cd.path_src, startsWithSep rel = false)
    (hok : expandCorpus fs corpus_id cd = Except.ok entries) :
    ∀ e ∈ entries, ∃ rel ∈ fs.walkFiles cd.path_src, pyEndsWith rel ".json" = true ∧
      e.2.path_src = fullPathOf cd.path_src rel ∧
      e.1 = corpus_id ++ "-" ++ replaceSep rel ∧
      e.2.label_data =
        cd.label_data.map (fun folders => folders.map (fun lf => osPathJoin lf rel)) := by
  have hent := expandCorpus_ok_dir hdir hok
  subst hent
  intro e he
  rw [List.mem_map] at he
  obtain ⟨p, hp, rfl⟩ := he
  obtain ⟨rel, hmem, hjson, rfl⟩ := mem_jsonFilePaths.mp hp
  exact ⟨rel, hmem, hjson, rfl, expandEntry_key hsep (hrel rel hmem),
    expandEntry_label hsep (hrel rel hmem)⟩

/-- Claim C4 as stated is false on the code: with directory path data (no trailing
separator) and label root labels, the file a.json gets label source /a.json — the
stripped suffix is absolute, so os.path.join discards the configured label root —
whereas joining the label root with the relative path gives labels/a.json. -/
theorem C4_counterexample :
    firstLabel (buildNewDataDict fsLabelNoSlash [("id", cdLabelNoSlash)]) =
      some (some ["/a.json"]) ∧
    osPathJoin "labels" "a.json" = "labels/a.json" ∧
    some (some ["/a.json"]) ≠ some (some ["labels/a.json"]) :=
  ⟨by decide, by decide, by decide⟩

/-- Witness for C4_labels on the directory dir/ with label roots labels and more. -/
theorem C4_labels_witness :
    (fsDirSlash.isDir cdLabelSlash.path_src = true ∧
      endsWithSep cdLabelSlash.path_src = true ∧
      (∀ rel ∈ fsDirSlash.walkFiles cdLabelSlash.path_src, startsWithSep rel = false) ∧
      expandCorpus fsDirSlash "id" cdLabelSlash = Except.ok entriesLabelSlash) ∧
    (∀ e ∈ entriesLabelSlash, ∃ rel ∈ fsDirSlash.walkFiles cdLabelSlash.path_src,
      pyEndsWith rel ".json" = true ∧
      e.2.path_src = fullPathOf cdLabelSlash.path_src rel ∧
      e.1 = "id" ++ "-" ++ replaceSep rel ∧
      e.2.label_data =
        cdLabelSlash.label_data.map (fun folders => folders.map (fun lf => osPathJoin lf rel))) :=
  ⟨⟨by decide, by decide, by decide, by decide⟩,
   C4_labels fsDirSlash "id" cdLabelSlash entriesLabelSlash
     (by decide) (by decide) (by decide) (by decide)⟩

/-- Claim C5: Shard Assignment is deterministic: two runs of train with the same
seed and configuration over file systems with identical contents — the walk may
enumerate each directory in any order, since the code sorts the discovered paths
lexicographically before the seeded shuffle — produce the identical result,
ShardSet ordering included. -/
theorem C5_deterministic (opt : Opt) (fs1 fs2 : FileSystem)
    (h : ∀ kv ∈ opt.data, fs1.isDir kv.2.path_src = fs2.isDir kv.2.path_src ∧
      (fs1.walkFiles kv.2.path_src).Perm (fs2.walkFiles kv.2.path_src)) :
    train fs1 opt = train fs2 opt := by
  unfold train
  rw [buildNewDataDict_congr h]

/-- Witness for C5_deterministic: two file systems walking dir/ in opposite
orders give the same train result. -/
theorem C5_deterministic_witness :
    (∀ kv ∈ optDir.data, fsWalkA.isDir kv.2.path_src = fsWalkB.isDir kv.2.path_src ∧
      (fsWalkA.walkFiles kv.2.path_src).Perm (fsWalkB.walkFiles kv.2.path_src)) ∧
    train fsWalkA optDir = train fsWalkB optDir :=
  ⟨by decide, C5_deterministic optDir fsWalkA fsWalkB (by decide)⟩

/-- Claim C6: in multi-device mode the semaphore (GlobalPermitPool) is created with
capacity exactly world_size * queue_size — and only with that capacity — and every
per-worker queue (BoundedChannel) is created with capacity exactly queue_size, one
for each worker ordinal below nb_gpu. -/
theorem C6_capacities (fs : FileSystem) (opt : Opt) (d : List (String × CorpusDict))
    (tr : List Event) (hws : 1 < opt.world_size)
    (hok : train fs opt = Except.ok (d, tr)) :
    Event.createSemaphore (opt.world_size * opt.queue_size) ∈ tr ∧
    (∀ c, Event.createSemaphore c ∈ tr → c = opt.world_size * opt.queue_size) ∧
    (∀ i c, Event.createQueue i c ∈ tr → c = opt.queue_size) ∧
    (∀ i, i < opt.gpu_ranks.length → Event.createQueue i opt.queue_size ∈ tr) := by
  have htr := train_ok_multi hws hok
  subst htr
  refine ⟨List.mem_cons_self _ _, ?_, ?_, ?_⟩
  · intro c hc
    rcases mem_multiTrace_cases hc with h | h | h | h | h
    · injection h with h1
    · obtain ⟨i, _, h | h | h⟩ := h <;> cases h
    · obtain ⟨i, _, h | h⟩ := h <;> cases h
    · obtain ⟨i, _, h⟩ := h; cases h
    · obtain ⟨i, _, h⟩ := h; cases h
  · intro i c hc
    rcases mem_multiTrace_cases hc with h | h | h | h | h
    · cases h
    · obtain ⟨j, _, h | h | h⟩ := h
      · injection h with h1 h2
      · cases h
      · cases h
    · obtain ⟨j, _, h | h⟩ := h <;> cases h
    · obtain ⟨j, _, h⟩ := h; cases h
    · obtain ⟨j, _, h⟩ := h; cases h
  · intro i hi
    exact List.mem_cons_of_mem _ (List.mem_append_left _ (List.mem_append_left _
      (List.mem_append_left _ (createQueue_mem_consumerPhase hi))))

/-- Witness for C6_capacities at the concrete configuration optMulti. -/
theorem C6_capacities_witness :
    1 < optMulti.world_size ∧
    train fsNone optMulti = Except.ok ([("c", cdPlain)], multiTrace 2 3 2) ∧
    (Event.createSemaphore (optMulti.world_size * optMulti.queue_size) ∈ multiTrace 2 3 2 ∧
      (∀ c, Event.createSemaphore c ∈ multiTrace 2 3 2 →
        c = optMulti.world_size * optMulti.queue_size) ∧
      (∀ i c, Event.createQueue i c ∈ multiTrace 2 3 2 → c = optMulti.queue_size) ∧
      (∀ i, i < optMulti.gpu_ranks.length →
        Event.createQueue i optMulti.queue_size ∈ multiTrace 2 3 2)) :=
  ⟨by decide, by decide,
   C6_capacities fsNone optMulti [("c", cdPlain)] (multiTrace 2 3 2) (by decide) (by decide)⟩

/-- Claim C7 (amended): in multi-device mode the numbers of consumer starts,
producer starts and producer terminations all equal nb_gpu = len(gpu_ranks) — which
equals world_size only when one rank is configured per world slot — and the trace
ends with the block of producer terminations, all of which come after every
consumer join. -/
theorem C7_spawn_counts (fs : FileSystem) (opt : Opt) (d : List (String × CorpusDict))
    (tr : List Event) (hws : 1 < opt.world_size) (hok : train fs opt = Except.ok (d, tr)) :
    (tr.filter isStartConsumer).length = opt.gpu_ranks.length ∧
    (tr.filter isStartProducer).length = opt.gpu_ranks.length ∧
    (tr.filter isTerminateProducer).length = opt.gpu_ranks.length ∧
    ∃ pre, tr = pre ++ (List.range opt.gpu_ranks.length).map Event.terminateProducer ∧
      (∀ i, i < opt.gpu_ranks.length → Event.joinConsumer i ∈ pre) ∧
      (∀ e ∈ pre, isTerminateProducer e = false) := by
  have htr := train_ok_multi hws hok
  subst htr
  refine ⟨?_, ?_, ?_, ?_⟩
  · rw [multiTrace_filter_startConsumer, List.length_map, List.length_range]
  · rw [multiTrace_filter_startProducer, List.length_map, List.length_range]
  · rw [multiTrace_filter_terminateProducer, List.length_map, List.length_range]
  · refine ⟨Event.createSemaphore (opt.world_size * opt.queue_size) ::
      (consumerPhase opt.gpu_ranks.length opt.queue_size ++
        producerPhase opt.gpu_ranks.length ++
        (List.range opt.gpu_ranks.length).map Event.joinConsumer), ?_, ?_, ?_⟩
    · unfold multiTrace
      simp [List.append_assoc]
    · intro i hi
      refine List.mem_cons_of_mem _ (List.mem_append_right _ ?_)
      exact List.mem_map_of_mem _ (List.mem_range.mpr hi)
    · intro e he
      rcases List.mem_cons.mp he with rfl | he2
      · rfl
      · rcases List.mem_append.mp he2 with h | h
        · rcases List.mem_append.mp h with h | h
          · rcases mem_consumerPhase_cases h with ⟨i, _, rfl | rfl | rfl⟩ <;> rfl
          · rcases mem_producerPhase_cases h with ⟨i, _, rfl | rfl⟩ <;> rfl
        · rw [List.mem_map] at h
          obtain ⟨b, _, rfl⟩ := h
          rfl

/-- Claim C7 as stated is false on the code: with world_size = 2 but a single
configured GPU rank, the multiprocessing branch spawns one consumer and one
producer, not two of each — the loops run over nb_gpu = len(gpu_ranks), not over
world_size. -/
theorem C7_counterexample :
    optOneGpu.world_size = 2 ∧
    spawnCounts (train fsNone optOneGpu) = some (1, 1) ∧
    some ((1 : Nat), (1 : Nat)) ≠ some ((2 : Nat), (2 : Nat)) :=
  ⟨rfl, by decide, by decide⟩

/-- Witness for C7_spawn_counts at the concrete configuration optMulti. -/
theorem C7_spawn_counts_witness :
    1 < optMulti.world_size ∧
    train fsNone optMulti = Except.ok ([("c", cdPlain)], multiTrace 2 3 2) ∧
    (((multiTrace 2 3 2).filter isStartConsumer).length = optMulti.gpu_ranks.length ∧
      ((multiTrace 2 3 2).filter isStartProducer).length = optMulti.gpu_ranks.length ∧
      ((multiTrace 2 3 2).filter isTerminateProducer).length = optMulti.gpu_ranks.length ∧
      ∃ pre, multiTrace 2 3 2 =
          pre ++ (List.range optMulti.gpu_ranks.length).map Event.terminateProducer ∧
        (∀ i, i < optMulti.gpu_ranks.length → Event.joinConsumer i ∈ pre) ∧
        (∀ e ∈ pre, isTerminateProducer e = false)) :=
  ⟨by decide, by decide,
   C7_spawn_counts fsNone optMulti [("c", cdPlain)] (multiTrace 2 3 2) (by decide) (by decide)⟩

/-- Claim C8 (amended): in multi-device mode the producer for ordinal i is bound to
an iterator built with stride = nb_gpu = len(gpu_ranks) — not world_size, which can
differ from it — and offset = i; the offsets 0..nb_gpu-1 under stride nb_gpu
partition the index space without overlap. -/
theorem C8_stride_offset (fs : FileSystem) (opt : Opt) (d : List (String × CorpusDict))
    (tr : List Event) (hws : 1 < opt.world_size) (hok : train fs opt = Except.ok (d, tr)) :
    (∀ i s o, Event.startProducer i s o ∈ tr →
      s = opt.gpu_ranks.length ∧ o = i ∧ i < opt.gpu_ranks.length) ∧
    (∀ i, i < opt.gpu_ranks.length →
      Event.startProducer i opt.gpu_ranks.length i ∈ tr) ∧
    (0 < opt.gpu_ranks.length → ∀ j : Nat,
      ∃! i, i < opt.gpu_ranks.length ∧ j % opt.gpu_ranks.length = i) := by
  have htr := train_ok_multi hws hok
  subst htr
  refine ⟨?_, ?_, ?_⟩
  · intro i s o hmem
    rcases mem_multiTrace_cases hmem with h | h | h | h | h
    · cases h
    · obtain ⟨j, _, h | h | h⟩ := h <;> cases h
    · obtain ⟨j, hj, h | h⟩ := h
      · injection h with h1 h2 h3
        subst h1
        exact ⟨h2, h3, hj⟩
      · cases h
    · obtain ⟨j, _, h⟩ := h; cases h
    · obtain ⟨j, _, h⟩ := h; cases h
  · intro i hi
    exact List.mem_cons_of_mem _ (List.mem_append_left _ (List.mem_append_left _
      (List.mem_append_right _ (startProducer_mem_producerPhase hi))))
  · intro hpos j
    refine ⟨j % opt.gpu_ranks.length, ⟨Nat.mod_lt j hpos, rfl⟩, ?_⟩
    intro y hy
    exact hy.2.symm

/-- Claim C8 as stated is false on the code: with world_size = 2 but a single
configured GPU rank, the only producer is bound to an iterator with stride 1 (the
number of GPU ranks), not stride 2 = world_size. -/
theorem C8_counterexample :
    optOneGpu.world_size = 2 ∧
    producerStarts (train fsNone optOneGpu) = some [Event.startProducer 0 1 0] ∧
    Event.startProducer 0 1 0 ≠ Event.startProducer 0 2 0 :=
  ⟨rfl, by decide, by decide⟩

/-- Witness for C8_stride_offset at the concrete configuration optMulti. -/
theorem C8_stride_offset_witness :
    1 < optMulti.world_size ∧
    train fsNone optMulti = Except.ok ([("c", cdPlain)], multiTrace 2 3 2) ∧
    ((∀ i s o, Event.startProducer i s o ∈ multiTrace 2 3 2 →
        s = optMulti.gpu_ranks.length ∧ o = i ∧ i < optMulti.gpu_ranks.length) ∧
      (∀ i, i < optMulti.gpu_ranks.length →
        Event.startProducer i optMulti.gpu_ranks.length i ∈ multiTrace 2 3 2) ∧
      (0 < optMulti.gpu_ranks.length → ∀ j : Nat,
        ∃! i, i < optMulti.gpu_ranks.length ∧ j % optMulti.gpu_ranks.length = i)) :=
  ⟨by decide, by decide,
   C8_stride_offset fsNone optMulti [("c", cdPlain)] (multiTrace 2 3 2) (by decide) (by decide)⟩

/-- Claim C9: two-phase spawn ordering — in multi-device mode the success trace
splits into a left part that contains the start and the error-handler registration
of every consumer and no producer start at all, and a right part that contains
every producer start: all consumers are started and registered before any producer
is started. -/
theorem C9_two_phase (fs : FileSystem) (opt : Opt) (d : List (String × CorpusDict))
    (tr : List Event) (hws : 1 < opt.world_size) (hok : train fs opt = Except.ok (d, tr)) :
    ∃ pre post, tr = pre ++ post ∧
      (∀ i, i < opt.gpu_ranks.length →
        Event.startConsumer i ∈ pre ∧ Event.registerConsumer i ∈ pre) ∧
      (∀ e ∈ pre, isStartProducer e = false) ∧
      (∀ i, i < opt.gpu_ranks.length →
        Event.startProducer i opt.gpu_ranks.length i ∈ post) := by
  have htr := train_ok_multi hws hok
  subst htr
  refine ⟨Event.createSemaphore (opt.world_size * opt.queue_size) ::
      consumerPhase opt.gpu_ranks.length opt.queue_size,
    producerPhase opt.gpu_ranks.length ++
      (List.range opt.gpu_ranks.length).map Event.joinConsumer ++
      (List.range opt.gpu_ranks.length).map Event.terminateProducer, ?_, ?_, ?_, ?_⟩
  · unfold multiTrace
    simp [List.append_assoc]
  · intro i hi
    exact ⟨List.mem_cons_of_mem _ (startConsumer_mem_consumerPhase hi),
      List.mem_cons_of_mem _ (registerConsumer_mem_consumerPhase hi)⟩
  · intro e he
    rcases List.mem_cons.mp he with rfl | he2
    · rfl
    · rcases mem_consumerPhase_cases he2 with ⟨i, _, rfl | rfl | rfl⟩ <;> rfl
  · intro i hi
    exact List.mem_append_left _ (List.mem_append_left _
      (startProducer_mem_producerPhase hi))

/-- Witness for C9_two_phase at the concrete configuration optMulti. -/
theorem C9_two_phase_witness :
    1 < optMulti.world_size ∧
    train fsNone optMulti = Except.ok ([("c", cdPlain)], multiTrace 2 3 2) ∧
    (∃ pre post, multiTrace 2 3 2 = pre ++ post ∧
      (∀ i, i < optMulti.gpu_ranks.length →
        Event.startConsumer i ∈ pre ∧ Event.registerConsumer i ∈ pre) ∧
      (∀ e ∈ pre, isStartProducer e = false) ∧
      (∀ i, i < optMulti.gpu_ranks.length →
        Event.startProducer i optMulti.gpu_ranks.length i ∈ post)) :=
  ⟨by decide, by decide,
   C9_two_phase fsNone optMulti [("c", cdPlain)] (multiTrace 2 3 2) (by decide) (by decide)⟩

/-- Claim C10: the expansion keys the ShardSet by the normalized identifier, so the
directory dir/ containing the two matching files a-b.json and a/b.json — whose
identifiers both normalize to id-a-b.json — yields a ShardSet with one single
entry, fewer than the two matching files, and the surviving value comes from
dir/a/b.json, the later file in lexicographic full-path order, which silently
replaced the earlier one. -/
theorem C10_key_collision :
    ((fsCollide.walkFiles "dir/").filter (fun f => pyEndsWith f ".json")).length = 2 ∧
    dictKeys (buildNewDataDict fsCollide [("id", cdCollide)]) = some ["id-a-b.json"] ∧
    firstSrc (buildNewDataDict fsCollide [("id", cdCollide)]) = some "dir/a/b.json" ∧
    pyStrLe "dir/a-b.json" "dir/a/b.json" ∧ "dir/a-b.json" ≠ "dir/a/b.json" :=
  ⟨by decide, by decide, by decide, by decide, by decide⟩
